import Mathlib

/-!
Verification of the job-sanitizing and orchestration layer of an engine
relay service.  The embedding follows the source: `api.rs` provides the
data model (`MultiPv`, `LichessVariant`, `Work`, `ClientSecret`) and the
validation pipeline `Work::sanitize`; `main.rs` provides the error
taxonomy and the `analyse` handler.  The chess-rules library (position
parsing, move legality) is an external collaborator and is embedded as an
abstract record of operations (`ChessLib`); its round-trip contract is
taken as an explicit hypothesis where a theorem needs it.
-/

/-- Native rule variants of the chess-rules library (shakmaty `Variant`). -/
inductive Variant : Type
  | Chess
  | Antichess
  | Atomic
  | Crazyhouse
  | Horde
  | KingOfTheHill
  | RacingKings
  | ThreeCheck
  deriving DecidableEq, Repr

/-- The Lichess-level rule variants (`enum LichessVariant` in api.rs). -/
inductive LichessVariant : Type
  | Antichess
  | Atomic
  | Chess960
  | Crazyhouse
  | FromPosition
  | Horde
  | KingOfTheHill
  | RacingKings
  | Standard
  | ThreeCheck
  deriving DecidableEq, Repr

/-- Embeds `impl From<LichessVariant> for Variant` (api.rs): Chess960, FromPosition
and Standard all map to the native `Chess`. -/
def LichessVariant.toVariant : LichessVariant → Variant
  | .Antichess => .Antichess
  | .Atomic => .Atomic
  | .Chess960 => .Chess
  | .FromPosition => .Chess
  | .Standard => .Chess
  | .Crazyhouse => .Crazyhouse
  | .Horde => .Horde
  | .KingOfTheHill => .KingOfTheHill
  | .RacingKings => .RacingKings
  | .ThreeCheck => .ThreeCheck

/-- Embeds `impl From<Variant> for LichessVariant` (api.rs): native `Chess` maps
back to `Standard`. -/
def Variant.toLichess : Variant → LichessVariant
  | .Chess => .Standard
  | .Antichess => .Antichess
  | .Atomic => .Atomic
  | .Crazyhouse => .Crazyhouse
  | .Horde => .Horde
  | .KingOfTheHill => .KingOfTheHill
  | .RacingKings => .RacingKings
  | .ThreeCheck => .ThreeCheck

/-- Embeds `struct MultiPv(u32)` (api.rs): the requested principal-variation count. -/
structure MultiPv where
  val : Nat
  deriving DecidableEq, Repr

/-- Embeds `struct InvalidMultiPvError` (api.rs), message "supported range is 1 to 5". -/
inductive InvalidMultiPvError : Type
  | mk
  deriving DecidableEq, Repr

/-- Embeds `impl TryFrom<u32> for MultiPv` (api.rs): accepts exactly 1 ..= 5.  This
conversion runs at deserialization time (`TryFromInto<u32>` on the
`multi_pv` field of `Work`). -/
def MultiPv.tryFrom (n : Nat) : Except InvalidMultiPvError MultiPv :=
  if 1 ≤ n ∧ n ≤ 5 then .ok ⟨n⟩ else .error .mk

/-- Embeds `impl Default for MultiPv` (api.rs). -/
def MultiPv.default : MultiPv := ⟨1⟩

/-- Embeds `struct ClientSecret(String)` (api.rs), held as its byte sequence. -/
structure ClientSecret where
  bytes : List Nat
  deriving DecidableEq, Repr

/-- Embeds `impl PartialEq for ClientSecret` (api.rs): best-effort constant time
equality — length equality, then an or-fold of the bytewise xors. -/
def ClientSecret.beq (a b : ClientSecret) : Bool :=
  a.bytes.length == b.bytes.length &&
    (a.bytes.zip b.bytes).foldl (fun acc lr => acc ||| (lr.1 ^^^ lr.2)) 0 == 0

/-- The normalized job payload `struct Work` (api.rs), generic over the
chess library's `Fen` and `Uci` representation types.  `threads` and
`hash` are the `NonZeroU32` values as naturals. -/
structure Work (Fen Uci : Type) where
  session_id : String
  threads : Nat
  hash : Nat
  deep : Bool
  multi_pv : MultiPv
  variant : LichessVariant
  initial_fen : Fen
  moves : List Uci
  deriving Repr

/-- Embeds `enum InvalidWorkError` (api.rs), generic over the library's position
error and illegal-uci error payloads. -/
inductive InvalidWorkError (PErr UErr : Type) : Type
  | Position (e : PErr)
  | IllegalUci (e : UErr)
  | TooManyMoves
  | UnsupportedVariant

/-- Modelled from the spec: the provider capability record
(`crate::repo::ExternalEngine`; repo.rs is not among the source files).
It declares the supported rule variants, the provider secret, the shared
client secret, and the maximum thread count and memory size; `sanitize`
reads `variants`, `max_threads` and `max_hash`. -/
structure ExternalEngine where
  variants : List LichessVariant
  max_threads : Nat
  max_hash : Nat
  provider_secret : String
  client_secret : ClientSecret

/-- The external chess-rules library, as consumed by `Work::sanitize`:
position construction from a setup (castling mode fixed to Chess960),
canonical re-serialization (en-passant mode Legal), uci-to-move
resolution (fallible on illegal moves), canonical uci re-expression, and
unchecked move application. -/
structure ChessLib (Pos Fen Uci Mv PErr UErr : Type) where
  from_setup : Variant → Fen → Except PErr Pos
  canonical_fen : Pos → Fen
  to_move : Uci → Pos → Except UErr Mv
  to_uci : Mv → Uci
  play_unchecked : Mv → Pos → Pos

variable {Pos Fen Uci Mv PErr UErr : Type}

/-- The move-replay loop of `Work::sanitize` (api.rs): resolve each uci in
the current position, record its canonical re-expression, and advance the
position; the first illegal move aborts with the library's error. -/
def replayMoves (lib : ChessLib Pos Fen Uci Mv PErr UErr) :
    Pos → List Uci → Except UErr (List Uci × Pos)
  | pos, [] => .ok ([], pos)
  | pos, uci :: rest =>
    match lib.to_move uci pos with
    | .error e => .error e
    | .ok m =>
      match replayMoves lib (lib.play_unchecked m pos) rest with
      | .error e => .error e
      | .ok (ms, q) => .ok (lib.to_uci m :: ms, q)

/-- Embeds `Work::sanitize` (api.rs): variant support check, position
construction, canonical fen, 600-move bound, sequential replay, and
downward clamping of `threads` and `hash` to the engine's maxima. -/
def Work.sanitize (lib : ChessLib Pos Fen Uci Mv PErr UErr) (self : Work Fen Uci)
    (engine : ExternalEngine) :
    Except (InvalidWorkError PErr UErr) (Work Fen Uci × Pos) :=
  if !(engine.variants.any fun v => v.toVariant == self.variant.toVariant) then
    .error .UnsupportedVariant
  else
    match lib.from_setup self.variant.toVariant self.initial_fen with
    | .error e => .error (.Position e)
    | .ok pos =>
      if self.moves.length > 600 then
        .error .TooManyMoves
      else
        match replayMoves lib pos self.moves with
        | .error e => .error (.IllegalUci e)
        | .ok (moves, endPos) =>
          .ok ({ session_id := self.session_id
                 threads := min self.threads engine.max_threads
                 hash := min self.hash engine.max_hash
                 deep := self.deep
                 multi_pv := self.multi_pv
                 variant := self.variant.toVariant.toLichess
                 initial_fen := lib.canonical_fen pos
                 moves := moves }, endPos)

/-- A concrete instantiation of the chess library used for witnesses: a
position is the list of moves played so far, fens and positions coincide,
every uci resolves to itself as a move, and canonical re-expression is the
identity.  It satisfies the round-trip contract definitionally. -/
def TestLib : ChessLib (List Nat) (List Nat) Nat Nat Unit Unit where
  from_setup := fun _ f => .ok f
  canonical_fen := fun p => p
  to_move := fun u _ => .ok u
  to_uci := fun m => m
  play_unchecked := fun m p => p ++ [m]

/-- A concrete raw request used by the witnesses: a Chess960 job asking
for more threads and memory than the provider declares. -/
def wRaw : Work (List Nat) Nat :=
  { session_id := "s", threads := 8, hash := 64, deep := false,
    multi_pv := ⟨1⟩, variant := .Chess960, initial_fen := [], moves := [7, 9] }

/-- A concrete capability record used by the witnesses: a provider that
declares only the Standard variant, 4 threads and 16 memory units. -/
def engTest : ExternalEngine :=
  { variants := [.Standard], max_threads := 4, max_hash := 16,
    provider_secret := "p", client_secret := ⟨[1]⟩ }

/-- The sanitized form of `wRaw` against `engTest`. -/
def wOut : Work (List Nat) Nat :=
  { session_id := "s", threads := 4, hash := 16, deep := false,
    multi_pv := ⟨1⟩, variant := .Standard, initial_fen := [], moves := [7, 9] }

/-- A concrete raw request with a 601-entry move list. -/
def wLong : Work (List Nat) Nat :=
  { session_id := "s", threads := 1, hash := 1, deep := false,
    multi_pv := ⟨1⟩, variant := .Standard, initial_fen := [],
    moves := List.replicate 601 1 }

/-- A concrete request whose principal-variation count is 6. -/
def wPv6 : Work (List Nat) Nat :=
  { session_id := "s", threads := 1, hash := 1, deep := false,
    multi_pv := ⟨6⟩, variant := .Standard, initial_fen := [], moves := [] }

/-- Embeds `struct AnalyseRequest` (api.rs): the body of a `POST analyse` call. -/
structure AnalyseRequest (Fen Uci : Type) where
  client_secret : ClientSecret
  work : Work Fen Uci

/-- Embeds `enum Error` (main.rs): `MongoDb` wraps a backend error message;
`EngineNotFound` covers unknown identity and secret mismatch alike. -/
inductive Error : Type
  | MongoDb (msg : String)
  | EngineNotFound
  deriving DecidableEq, Repr

/-- Embeds `impl IntoResponse for Error` (main.rs): the HTTP status code paired
with the rendered `thiserror` message. -/
def Error.intoResponse : Error → Nat × String
  | .MongoDb msg => (500, "mongodb error: " ++ msg)
  | .EngineNotFound => (404, "engine not found or invalid clientSecret")

/-- Embeds `struct Work \x7b tx: Sender<()> \x7d` (main.rs): the value type the hub
actually stores — a result channel handle, identified here by a channel
token.  It carries no job payload. -/
structure MainWork where
  tx : Nat
  deriving DecidableEq, Repr

/-- Modelled from the spec: `Repo::find` (repo.rs is not among the source
files) looks the capability record up by provider identity and verifies
the presented client secret with the constant-time comparison; an unknown
identity and a secret mismatch both yield `none`. -/
def Repo.find (db : String → Option ExternalEngine) (id : String)
    (client_secret : ClientSecret) : Option ExternalEngine :=
  match db id with
  | none => none
  | some engine =>
    if ClientSecret.beq engine.client_secret client_secret then some engine else none

/-- The `analyse` handler (main.rs): authenticate via `Repo::find`, fail
with `EngineNotFound` when that yields nothing, otherwise open a result
channel and hand `Work { tx }` to `Hub::submit` under the provider's
selector.  `sel` is the selector derivation (SHA-256, an external
primitive) and `tx` the fresh channel token; the returned pair is exactly
the `(key, value)` argument of `Hub::submit`.  Note the handler never
touches `req.work`. -/
def analyse (sel : String → String) (db : String → Option ExternalEngine)
    (tx : Nat) (id : String) (req : AnalyseRequest Fen Uci) :
    Except Error (String × MainWork) :=
  match Repo.find db id req.client_secret with
  | none => .error .EngineNotFound
  | some engine => .ok (sel engine.provider_secret, { tx := tx })

/-- The sequential-replay relation: `Replay lib p us os q` holds when the
input ucis `us`, applied in order from position `p`, each resolve to a
legal move, `os` is the list of their canonical re-expressions, and `q`
is the final position. -/
inductive Replay (lib : ChessLib Pos Fen Uci Mv PErr UErr) :
    Pos → List Uci → List Uci → Pos → Prop
  | nil (p : Pos) : Replay lib p [] [] p
  | cons {p : Pos} {u : Uci} {m : Mv} {us os : List Uci} {q : Pos} :
      lib.to_move u p = .ok m →
      Replay lib (lib.play_unchecked m p) us os q →
      Replay lib p (u :: us) (lib.to_uci m :: os) q

/-- The library's canonical-move contract: a move obtained from some uci
in a position is re-obtained from its canonical re-expression in that
same position. -/
def UciRoundTrip (lib : ChessLib Pos Fen Uci Mv PErr UErr) : Prop :=
  ∀ (p : Pos) (m : Mv), (∃ u, lib.to_move u p = .ok m) →
    lib.to_move (lib.to_uci m) p = .ok m

/-- The library's canonical-fen contract: re-parsing the canonical fen of
a position yields that position back. -/
def FenRoundTrip (lib : ChessLib Pos Fen Uci Mv PErr UErr) : Prop :=
  ∀ (v : Variant) (p : Pos), lib.from_setup v (lib.canonical_fen p) = .ok p

theorem replay_sound {lib : ChessLib Pos Fen Uci Mv PErr UErr} :
    ∀ {p : Pos} {us os : List Uci} {q : Pos},
      replayMoves lib p us = .ok (os, q) → Replay lib p us os q := by
  intro p us
  induction us generalizing p with
  | nil =>
    intro os q h
    simp only [replayMoves] at h
    cases h
    exact .nil p
  | cons u rest ih =>
    intro os q h
    simp only [replayMoves] at h
    split at h
    · cases h
    · rename_i m hm
      split at h
      · cases h
      · rename_i pr ms q2 hr
        cases h
        exact .cons hm (ih hr)

theorem replay_complete {lib : ChessLib Pos Fen Uci Mv PErr UErr}
    {p : Pos} {us os : List Uci} {q : Pos}
    (h : Replay lib p us os q) : replayMoves lib p us = .ok (os, q) := by
  induction h with
  | nil p => rfl
  | cons hm _ ih => simp only [replayMoves, hm, ih]

theorem Replay.length_eq {lib : ChessLib Pos Fen Uci Mv PErr UErr}
    {p : Pos} {us os : List Uci} {q : Pos}
    (h : Replay lib p us os q) : os.length = us.length := by
  induction h with
  | nil p => rfl
  | cons _ _ ih => simpa using ih

theorem Replay.canonical {lib : ChessLib Pos Fen Uci Mv PErr UErr}
    (hrt : UciRoundTrip lib) {p : Pos} {us os : List Uci} {q : Pos}
    (h : Replay lib p us os q) : Replay lib p os os q := by
  induction h with
  | nil p => exact .nil p
  | cons hm _ ih => exact .cons (hrt _ _ ⟨_, hm⟩) ih

theorem replay_first_illegal {lib : ChessLib Pos Fen Uci Mv PErr UErr}
    {p : Pos} {us os : List Uci} {q : Pos}
    (h : Replay lib p us os q) {u : Uci} {e : UErr}
    (hbad : lib.to_move u q = .error e) (rest : List Uci) :
    replayMoves lib p (us ++ u :: rest) = .error e := by
  induction h with
  | nil p => simp only [List.nil_append, replayMoves, hbad]
  | cons hm _ ih => simp only [List.cons_append, replayMoves, hm, List.append_eq, ih hbad]

/-- The native-to-lichess-to-native variant round trip is the identity. -/
theorem Variant.toLichess_toVariant (v : Variant) : v.toLichess.toVariant = v := by
  cases v <;> rfl

theorem min_min_right (a b : Nat) : min (min a b) b = min a b := by
  rw [min_assoc, min_self]

theorem sanitize_ok_of {lib : ChessLib Pos Fen Uci Mv PErr UErr}
    {w : Work Fen Uci} {engine : ExternalEngine} {pos : Pos} {os : List Uci} {q : Pos}
    (hvar : (engine.variants.any fun v => v.toVariant == w.variant.toVariant) = true)
    (hfs : lib.from_setup w.variant.toVariant w.initial_fen = .ok pos)
    (hlen : w.moves.length ≤ 600)
    (hr : replayMoves lib pos w.moves = .ok (os, q)) :
    Work.sanitize lib w engine =
      .ok ({ session_id := w.session_id
             threads := min w.threads engine.max_threads
             hash := min w.hash engine.max_hash
             deep := w.deep
             multi_pv := w.multi_pv
             variant := w.variant.toVariant.toLichess
             initial_fen := lib.canonical_fen pos
             moves := os }, q) := by
  unfold Work.sanitize
  rw [hvar]
  simp only [Bool.not_true, Bool.false_eq_true, if_false, hfs]
  rw [if_neg (by omega)]
  rw [hr]

theorem sanitize_not_any {lib : ChessLib Pos Fen Uci Mv PErr UErr}
    {w : Work Fen Uci} {engine : ExternalEngine}
    (hvar : (engine.variants.any fun v => v.toVariant == w.variant.toVariant) = false) :
    Work.sanitize lib w engine = .error .UnsupportedVariant := by
  unfold Work.sanitize
  rw [hvar]
  rfl

theorem sanitize_pos_error {lib : ChessLib Pos Fen Uci Mv PErr UErr}
    {w : Work Fen Uci} {engine : ExternalEngine} {e : PErr}
    (hvar : (engine.variants.any fun v => v.toVariant == w.variant.toVariant) = true)
    (hfs : lib.from_setup w.variant.toVariant w.initial_fen = .error e) :
    Work.sanitize lib w engine = .error (.Position e) := by
  unfold Work.sanitize
  rw [hvar]
  simp only [Bool.not_true, Bool.false_eq_true, if_false, hfs]

theorem sanitize_too_many {lib : ChessLib Pos Fen Uci Mv PErr UErr}
    {w : Work Fen Uci} {engine : ExternalEngine} {pos : Pos}
    (hvar : (engine.variants.any fun v => v.toVariant == w.variant.toVariant) = true)
    (hfs : lib.from_setup w.variant.toVariant w.initial_fen = .ok pos)
    (hlen : w.moves.length > 600) :
    Work.sanitize lib w engine = .error .TooManyMoves := by
  unfold Work.sanitize
  rw [hvar]
  simp only [Bool.not_true, Bool.false_eq_true, if_false, hfs]
  rw [if_pos hlen]

theorem sanitize_illegal {lib : ChessLib Pos Fen Uci Mv PErr UErr}
    {w : Work Fen Uci} {engine : ExternalEngine} {pos : Pos} {e : UErr}
    (hvar : (engine.variants.any fun v => v.toVariant == w.variant.toVariant) = true)
    (hfs : lib.from_setup w.variant.toVariant w.initial_fen = .ok pos)
    (hlen : w.moves.length ≤ 600)
    (hr : replayMoves lib pos w.moves = .error e) :
    Work.sanitize lib w engine = .error (.IllegalUci e) := by
  unfold Work.sanitize
  rw [hvar]
  simp only [Bool.not_true, Bool.false_eq_true, if_false, hfs]
  rw [if_neg (by omega)]
  rw [hr]

theorem sanitize_ok_inv {lib : ChessLib Pos Fen Uci Mv PErr UErr}
    {w w' : Work Fen Uci} {engine : ExternalEngine} {p' : Pos}
    (h : Work.sanitize lib w engine = .ok (w', p')) :
    (engine.variants.any fun v => v.toVariant == w.variant.toVariant) = true ∧
    ∃ pos, lib.from_setup w.variant.toVariant w.initial_fen = .ok pos ∧
      w.moves.length ≤ 600 ∧
      replayMoves lib pos w.moves = .ok (w'.moves, p') ∧
      w'.session_id = w.session_id ∧
      w'.threads = min w.threads engine.max_threads ∧
      w'.hash = min w.hash engine.max_hash ∧
      w'.deep = w.deep ∧
      w'.multi_pv = w.multi_pv ∧
      w'.variant = w.variant.toVariant.toLichess ∧
      w'.initial_fen = lib.canonical_fen pos := by
  unfold Work.sanitize at h
  cases hvar : (engine.variants.any fun v => v.toVariant == w.variant.toVariant) with
  | false => rw [hvar] at h; simp only [Bool.not_false, if_pos] at h; cases h
  | true =>
    rw [hvar] at h
    simp only [Bool.not_true, Bool.false_eq_true, if_false] at h
    refine ⟨rfl, ?_⟩
    split at h
    · cases h
    · rename_i pos hfs
      refine ⟨pos, hfs, ?_⟩
      split at h
      · cases h
      · rename_i hlen
        split at h
        · cases h
        · rename_i pr ms q hr
          cases h
          exact ⟨Nat.le_of_not_lt hlen, hr, rfl, rfl, rfl, rfl, rfl, rfl, rfl⟩

/-- C2: `Work::sanitize` is idempotent: whenever `sanitize w engine`
succeeds with output work `w'` (and end position `p'`), re-sanitizing `w'`
against the same capability record succeeds and returns the identical
work, field for field (and the same end position).  The chess library is
assumed to satisfy its canonical round-trip contract. -/
theorem C2_sanitize_idempotent {lib : ChessLib Pos Fen Uci Mv PErr UErr}
    (hfen : FenRoundTrip lib) (huci : UciRoundTrip lib)
    {w w' : Work Fen Uci} {engine : ExternalEngine} {p' : Pos}
    (h : Work.sanitize lib w engine = .ok (w', p')) :
    Work.sanitize lib w' engine = .ok (w', p') := by
  obtain ⟨hvar, pos, hfs, hlen, hr, hsid, hth, hha, hdeep, hpv, hvariant, hfen0⟩ :=
    sanitize_ok_inv h
  have hvt : w'.variant.toVariant = w.variant.toVariant := by
    rw [hvariant, Variant.toLichess_toVariant]
  have hvar' : (engine.variants.any fun v => v.toVariant == w'.variant.toVariant) = true := by
    rw [hvt]; exact hvar
  have hfs' : lib.from_setup w'.variant.toVariant w'.initial_fen = .ok pos := by
    rw [hvt, hfen0]; exact hfen _ _
  have hRe : Replay lib pos w.moves w'.moves p' := replay_sound hr
  have hlen' : w'.moves.length ≤ 600 := by rw [hRe.length_eq]; exact hlen
  have hr' : replayMoves lib pos w'.moves = .ok (w'.moves, p') :=
    replay_complete (hRe.canonical huci)
  rw [sanitize_ok_of hvar' hfs' hlen' hr']
  have hw : ({ session_id := w'.session_id
               threads := min w'.threads engine.max_threads
               hash := min w'.hash engine.max_hash
               deep := w'.deep
               multi_pv := w'.multi_pv
               variant := w'.variant.toVariant.toLichess
               initial_fen := lib.canonical_fen pos
               moves := w'.moves } : Work Fen Uci) = w' := by
    rw [hvt, ← hvariant, ← hfen0, hth, hha, min_min_right, min_min_right, ← hth, ← hha]
  rw [hw]

/-- C2 witness: the idempotence theorem applied to the concrete test
library, raw request and capability record. -/
theorem C2_witness : Work.sanitize TestLib wOut engTest = .ok (wOut, [7, 9]) :=
  C2_sanitize_idempotent (fun _ _ => rfl) (fun _ _ _ => rfl)
    (show Work.sanitize TestLib wRaw engTest = .ok (wOut, [7, 9]) from rfl)

/-- C4: resource clamping in `Work::sanitize` is downward-only: on every
success the output thread count is `min(threads, max_threads)` and the
output hash size is `min(hash, max_hash)`; a request not exceeding the
declared maximum is left untouched, and the output never exceeds the
declared maxima. -/
theorem C4_clamp_downward {lib : ChessLib Pos Fen Uci Mv PErr UErr}
    {w w' : Work Fen Uci} {engine : ExternalEngine} {p' : Pos}
    (h : Work.sanitize lib w engine = .ok (w', p')) :
    w'.threads = min w.threads engine.max_threads ∧
    w'.hash = min w.hash engine.max_hash ∧
    (w.threads ≤ engine.max_threads → w'.threads = w.threads) ∧
    (w.hash ≤ engine.max_hash → w'.hash = w.hash) ∧
    w'.threads ≤ engine.max_threads ∧
    w'.hash ≤ engine.max_hash := by
  obtain ⟨-, -, -, -, -, -, hth, hha, -⟩ := sanitize_ok_inv h
  refine ⟨hth, hha, ?_, ?_, ?_, ?_⟩
  · intro hle; rw [hth]; exact min_eq_left hle
  · intro hle; rw [hha]; exact min_eq_left hle
  · rw [hth]; exact min_le_right _ _
  · rw [hha]; exact min_le_right _ _

/-- C4 witness: the clamping theorem applied to the concrete request that
asks for 8 threads and 64 hash against maxima of 4 and 16. -/
theorem C4_witness :
    wOut.threads = min wRaw.threads engTest.max_threads ∧
    wOut.hash = min wRaw.hash engTest.max_hash ∧
    (wRaw.threads ≤ engTest.max_threads → wOut.threads = wRaw.threads) ∧
    (wRaw.hash ≤ engTest.max_hash → wOut.hash = wRaw.hash) ∧
    wOut.threads ≤ engTest.max_threads ∧
    wOut.hash ≤ engTest.max_hash :=
  C4_clamp_downward
    (show Work.sanitize TestLib wRaw engTest = .ok (wOut, [7, 9]) from rfl)

/-- C10: `Work::sanitize` leaves the non-normalized fields unchanged: on
every success the output's session identifier, deep-analysis flag and
principal-variation count are exactly those of the input. -/
theorem C10_frame_fields {lib : ChessLib Pos Fen Uci Mv PErr UErr}
    {w w' : Work Fen Uci} {engine : ExternalEngine} {p' : Pos}
    (h : Work.sanitize lib w engine = .ok (w', p')) :
    w'.session_id = w.session_id ∧ w'.deep = w.deep ∧ w'.multi_pv = w.multi_pv := by
  obtain ⟨-, -, -, -, -, hsid, -, -, hdeep, hpv, -, -⟩ := sanitize_ok_inv h
  exact ⟨hsid, hdeep, hpv⟩

/-- C10 witness: the frame theorem applied to the concrete request. -/
theorem C10_witness :
    wOut.session_id = wRaw.session_id ∧ wOut.deep = wRaw.deep ∧
    wOut.multi_pv = wRaw.multi_pv :=
  C10_frame_fields
    (show Work.sanitize TestLib wRaw engTest = .ok (wOut, [7, 9]) from rfl)

/-- C7: `Work::sanitize` fails with `UnsupportedVariant` exactly when no
variant in the provider's declared list maps to the same native variant
as the requested one; when some declared variant does map to it, the
result is never `UnsupportedVariant` (sanitize proceeds past the check). -/
theorem C7_unsupported_iff {lib : ChessLib Pos Fen Uci Mv PErr UErr}
    {w : Work Fen Uci} {engine : ExternalEngine} :
    Work.sanitize lib w engine = .error .UnsupportedVariant ↔
      ¬ ∃ v ∈ engine.variants, v.toVariant = w.variant.toVariant := by
  cases hvar : (engine.variants.any fun v => v.toVariant == w.variant.toVariant) with
  | false =>
    refine iff_of_true (sanitize_not_any hvar) ?_
    rintro ⟨v, hv, hveq⟩
    have hany : (engine.variants.any fun x => x.toVariant == w.variant.toVariant) = true := by
      rw [List.any_eq_true]
      exact ⟨v, hv, by simp [hveq]⟩
    rw [hany] at hvar
    cases hvar
  | true =>
    have hne : Work.sanitize lib w engine ≠ .error .UnsupportedVariant := by
      cases hfs : lib.from_setup w.variant.toVariant w.initial_fen with
      | error e => rw [sanitize_pos_error hvar hfs]; simp
      | ok pos =>
        by_cases hlen : w.moves.length > 600
        · rw [sanitize_too_many hvar hfs hlen]; simp
        · cases hr : replayMoves lib pos w.moves with
          | error e => rw [sanitize_illegal hvar hfs (by omega) hr]; simp
          | ok pr =>
            obtain ⟨os, q⟩ := pr
            rw [sanitize_ok_of hvar hfs (by omega) hr]
            simp
    rw [List.any_eq_true] at hvar
    obtain ⟨v, hv, hbeq⟩ := hvar
    exact iff_of_false hne fun hno => hno ⟨v, hv, by simpa using hbeq⟩

/-- C7 witness: the characterization applied to the concrete Chess960
request against a provider declaring only Standard (which maps to the
same native variant, so the error does not occur). -/
theorem C7_witness :
    Work.sanitize TestLib wRaw engTest = .error .UnsupportedVariant ↔
      ¬ ∃ v ∈ engTest.variants, v.toVariant = wRaw.variant.toVariant :=
  C7_unsupported_iff

/-- C5: for a request whose variant is supported and whose initial
position parses, `Work::sanitize` fails with `TooManyMoves` exactly when
the move list has more than 600 entries; and an error result excludes any
output work. -/
theorem C5_too_many_moves {lib : ChessLib Pos Fen Uci Mv PErr UErr}
    {w : Work Fen Uci} {engine : ExternalEngine} {pos : Pos}
    (hvar : (engine.variants.any fun v => v.toVariant == w.variant.toVariant) = true)
    (hfs : lib.from_setup w.variant.toVariant w.initial_fen = .ok pos) :
    (Work.sanitize lib w engine = .error .TooManyMoves ↔ 600 < w.moves.length) ∧
    (∀ (err : InvalidWorkError PErr UErr) (w' : Work Fen Uci) (q : Pos),
      Work.sanitize lib w engine = .error err →
      Work.sanitize lib w engine ≠ .ok (w', q)) := by
  constructor
  · constructor
    · intro h
      by_contra hlen
      cases hr : replayMoves lib pos w.moves with
      | error e => rw [sanitize_illegal hvar hfs (by omega) hr] at h; simp at h
      | ok pr =>
        obtain ⟨os, q⟩ := pr
        rw [sanitize_ok_of hvar hfs (by omega) hr] at h
        simp at h
    · intro hlen
      exact sanitize_too_many hvar hfs hlen
  · intro err w' q herr hok
    rw [herr] at hok
    cases hok

/-- C5 witness: the theorem applied to the concrete 601-move request; its
hypotheses are evaluated on that input. -/
theorem C5_witness :
    ((engTest.variants.any fun v => v.toVariant == wLong.variant.toVariant) = true) ∧
    ((Work.sanitize TestLib wLong engTest = .error .TooManyMoves ↔
        600 < wLong.moves.length) ∧
     (∀ (err : InvalidWorkError Unit Unit) (w' : Work (List Nat) Nat) (q : List Nat),
        Work.sanitize TestLib wLong engTest = .error err →
        Work.sanitize TestLib wLong engTest ≠ .ok (w', q))) :=
  ⟨rfl, C5_too_many_moves rfl rfl⟩

/-- C3 counterexample: a job requesting a principal-variation count of 6
is not rejected by `Work::sanitize` — sanitize succeeds and returns a
work whose PV count is still 6.  The PV bound lives in the deserializer,
not in sanitize. -/
theorem C3_counterexample :
    Work.sanitize TestLib wPv6 engTest = .ok (wPv6, ([] : List Nat)) ∧
    wPv6.multi_pv.val = 6 :=
  ⟨rfl, rfl⟩

/-- C3 (amended): the principal-variation bound is enforced at
deserialization, not in `Work::sanitize`: `TryFrom<u32> for MultiPv`
accepts exactly the counts in [1,5] and fails with the distinct stable
error `InvalidMultiPvError` (message "supported range is 1 to 5") on any
other count, 0 and 6 included, so no `Work` with an out-of-range PV count
is ever deserialized. -/
theorem C3_multipv_bound (n : Nat) :
    (MultiPv.tryFrom n = .ok ⟨n⟩ ↔ 1 ≤ n ∧ n ≤ 5) ∧
    (MultiPv.tryFrom n = .error .mk ↔ ¬(1 ≤ n ∧ n ≤ 5)) := by
  unfold MultiPv.tryFrom
  by_cases h : 1 ≤ n ∧ n ≤ 5 <;> simp [h]

/-- C9: the variant round trip is not the identity: Chess960, FromPosition
and Standard all collapse to Standard through the native variant space; a
successful sanitize of such a request outputs a Standard-variant work,
and a provider declaring only Standard passes the support check for all
three. -/
theorem C9_variant_collapse {lib : ChessLib Pos Fen Uci Mv PErr UErr}
    {w w' : Work Fen Uci} {engine : ExternalEngine} {p' : Pos}
    (hvs : w.variant = .Chess960 ∨ w.variant = .FromPosition ∨ w.variant = .Standard)
    (h : Work.sanitize lib w engine = .ok (w', p')) :
    w'.variant = .Standard ∧
    (LichessVariant.Chess960.toVariant.toLichess = .Standard ∧
     LichessVariant.FromPosition.toVariant.toLichess = .Standard ∧
     LichessVariant.Standard.toVariant.toLichess = .Standard) ∧
    (∀ w2 : Work Fen Uci,
      w2.variant = .Chess960 ∨ w2.variant = .FromPosition ∨ w2.variant = .Standard →
      ∀ engine2 : ExternalEngine, engine2.variants = [.Standard] →
        (engine2.variants.any fun v => v.toVariant == w2.variant.toVariant) = true) := by
  obtain ⟨-, -, -, -, -, -, -, -, -, -, hvariant, -⟩ := sanitize_ok_inv h
  refine ⟨?_, ⟨rfl, rfl, rfl⟩, ?_⟩
  · rw [hvariant]
    rcases hvs with hv | hv | hv <;> rw [hv] <;> rfl
  · intro w2 hvs2 engine2 hv2
    rw [hv2]
    rcases hvs2 with hv | hv | hv <;> rw [hv] <;> rfl

/-- C9 witness: the collapse theorem applied to the concrete Chess960
request, whose sanitized output has variant Standard. -/
theorem C9_witness :
    wOut.variant = .Standard ∧
    (LichessVariant.Chess960.toVariant.toLichess = .Standard ∧
     LichessVariant.FromPosition.toVariant.toLichess = .Standard ∧
     LichessVariant.Standard.toVariant.toLichess = .Standard) ∧
    (∀ w2 : Work (List Nat) Nat,
      w2.variant = .Chess960 ∨ w2.variant = .FromPosition ∨ w2.variant = .Standard →
      ∀ engine2 : ExternalEngine, engine2.variants = [.Standard] →
        (engine2.variants.any fun v => v.toVariant == w2.variant.toVariant) = true) :=
  C9_variant_collapse (Or.inl rfl)
    (show Work.sanitize TestLib wRaw engTest = .ok (wOut, [7, 9]) from rfl)

/-- C6: `Work::sanitize` replays the move list sequentially from the
constructed initial position.  On success the output moves stand in the
`Replay` relation to the input moves — each output move is the canonical
re-expression (`to_uci`, Chess960 castling) of the accepted move its input
uci resolved to — and, under the library's round-trip contract, the
output sequence replays legally from the position the canonical initial
fen denotes.  If some prefix replays legally to a position in which the
next move is illegal, sanitize fails with that illegal-move error. -/
theorem C6_sequential_replay {lib : ChessLib Pos Fen Uci Mv PErr UErr}
    {w w' : Work Fen Uci} {engine : ExternalEngine} {p' pos : Pos}
    (hfs : lib.from_setup w.variant.toVariant w.initial_fen = .ok pos) :
    (Work.sanitize lib w engine = .ok (w', p') →
       Replay lib pos w.moves w'.moves p' ∧
       (UciRoundTrip lib → Replay lib pos w'.moves w'.moves p') ∧
       (FenRoundTrip lib →
         lib.from_setup w.variant.toVariant w'.initial_fen = .ok pos)) ∧
    (∀ (done osDone rest : List Uci) (q : Pos) (u : Uci) (e : UErr),
       (engine.variants.any fun v => v.toVariant == w.variant.toVariant) = true →
       w.moves = done ++ u :: rest →
       w.moves.length ≤ 600 →
       Replay lib pos done osDone q →
       lib.to_move u q = .error e →
       Work.sanitize lib w engine = .error (.IllegalUci e)) := by
  constructor
  · intro h
    obtain ⟨-, pos2, hfs2, -, hr, -, -, -, -, -, -, hfen0⟩ := sanitize_ok_inv h
    rw [hfs] at hfs2
    cases hfs2
    have hRe : Replay lib pos w.moves w'.moves p' := replay_sound hr
    refine ⟨hRe, fun huci => hRe.canonical huci, fun hfen => ?_⟩
    rw [hfen0]
    exact hfen _ _
  · intro done osDone rest q u e hvar hmoves hlen hpre hbad
    have hr : replayMoves lib pos w.moves = .error e := by
      rw [hmoves]
      exact replay_first_illegal hpre hbad rest
    exact sanitize_illegal hvar hfs hlen hr

/-- C6 witness: the replay theorem applied to the concrete request, its
position-parse hypothesis evaluated on that input. -/
theorem C6_witness :
    (TestLib.from_setup wRaw.variant.toVariant wRaw.initial_fen = .ok ([] : List Nat)) ∧
    ((Work.sanitize TestLib wRaw engTest = .ok (wOut, [7, 9]) →
        Replay TestLib [] wRaw.moves wOut.moves [7, 9] ∧
        (UciRoundTrip TestLib → Replay TestLib [] wOut.moves wOut.moves [7, 9]) ∧
        (FenRoundTrip TestLib →
          TestLib.from_setup wRaw.variant.toVariant wOut.initial_fen = .ok ([] : List Nat))) ∧
     (∀ (done osDone rest : List Nat) (q : List Nat) (u : Nat) (e : Unit),
        (engTest.variants.any fun v => v.toVariant == wRaw.variant.toVariant) = true →
        wRaw.moves = done ++ u :: rest →
        wRaw.moves.length ≤ 600 →
        Replay TestLib [] done osDone q →
        TestLib.to_move u q = .error e →
        Work.sanitize TestLib wRaw engTest = .error (.IllegalUci e))) :=
  ⟨rfl, C6_sequential_replay rfl⟩

/-- C8: authentication failures are indistinguishable: an analyse request
naming an unknown provider identity and one naming a known provider with
a mismatched client secret produce the identical `EngineNotFound` error,
whose rendered response is the same 404 status and message in both
cases. -/
theorem C8_auth_uniform (sel : String → String)
    (db : String → Option ExternalEngine) (tx1 tx2 : Nat) (id1 id2 : String)
    (req1 req2 : AnalyseRequest Fen Uci) (e : ExternalEngine)
    (hunknown : db id1 = none) (hfound : db id2 = some e)
    (hmismatch : ClientSecret.beq e.client_secret req2.client_secret = false) :
    analyse sel db tx1 id1 req1 = .error .EngineNotFound ∧
    analyse sel db tx2 id2 req2 = .error .EngineNotFound ∧
    analyse sel db tx1 id1 req1 = analyse sel db tx2 id2 req2 ∧
    Error.intoResponse .EngineNotFound =
      (404, "engine not found or invalid clientSecret") := by
  have h1 : analyse sel db tx1 id1 req1 = .error .EngineNotFound := by
    unfold analyse Repo.find
    rw [hunknown]
  have h2 : analyse sel db tx2 id2 req2 = .error .EngineNotFound := by
    unfold analyse Repo.find
    rw [hfound]
    simp only [hmismatch, Bool.false_eq_true, if_false]
  exact ⟨h1, h2, h1.trans h2.symm, rfl⟩

/-- A concrete capability store for the C8 witness: one provider under
identity "e1" with stored client secret byte [1]. -/
def dbTest : String → Option ExternalEngine :=
  fun id => if id = "e1" then some engTest else none

/-- A concrete request presenting the wrong client secret byte [2]. -/
def reqWrongSecret : AnalyseRequest (List Nat) Nat :=
  { client_secret := ⟨[2]⟩, work := wRaw }

/-- A concrete request presenting the right secret (for the unknown-id case
the secret is irrelevant). -/
def reqRightSecret : AnalyseRequest (List Nat) Nat :=
  { client_secret := ⟨[1]⟩, work := wRaw }

/-- C8 witness: the indistinguishability theorem at a concrete store — an
unknown identity "nobody" and the known identity "e1" with a wrong
secret. -/
theorem C8_witness :
    analyse id dbTest 0 "nobody" reqRightSecret = .error .EngineNotFound ∧
    analyse id dbTest 1 "e1" reqWrongSecret = .error .EngineNotFound ∧
    analyse id dbTest 0 "nobody" reqRightSecret = analyse id dbTest 1 "e1" reqWrongSecret ∧
    Error.intoResponse .EngineNotFound =
      (404, "engine not found or invalid clientSecret") :=
  C8_auth_uniform id dbTest 0 1 "nobody" "e1" reqRightSecret reqWrongSecret
    engTest rfl rfl rfl

/-- C1 evidence: the `analyse` handler never consumes the request's work
field — the pair it hands to `Hub::submit` is the same for any two
authenticated requests that differ only in their `work`, because the
handler submits only the liveness channel handle `Work { tx }` and never
calls `Work::sanitize`. -/
theorem C1_analyse_ignores_work (sel : String → String)
    (db : String → Option ExternalEngine) (tx : Nat) (id : String)
    (secret : ClientSecret) (w1 w2 : Work Fen Uci) :
    analyse sel db tx id { client_secret := secret, work := w1 } =
    analyse sel db tx id { client_secret := secret, work := w2 } := rfl
